import Mathlib

/-!
Shallow embedding of the persona repository's intent-classification and
follow-up-generation pipeline (src/intent_classifier.py,
src/ai_intent_classifier.py, src/chain_query_generator.py).

Python strings are modelled as Lean `String`/`List Char` (ASCII scope),
Python floats as `ℚ`, regular-expression searching and JSON loading as
abstract oracle parameters (the theorems hold for every oracle), and the
text-generation gateway as a function returning `Except Unit String`
(`.error` models any transport failure / raised exception).
-/

namespace Persona

/-- Python whitespace characters (`str.strip()` default set, ASCII scope). -/
def isPySpace (c : Char) : Bool :=
  c = ' ' || c = '\t' || c = '\n' || c = '\r' || c = '\x0b' || c = '\x0c'

/-- Drop the longest suffix whose characters satisfy `p`. -/
def dropTrailing (p : Char → Bool) (l : List Char) : List Char :=
  (l.reverse.dropWhile p).reverse

/-- Python `str.strip()` on a character list. -/
def pyStripL (l : List Char) : List Char :=
  dropTrailing isPySpace (l.dropWhile isPySpace)

/-- Python `str.strip()`. -/
def pyStrip (s : String) : String := ⟨pyStripL s.data⟩

/-- Python `str.strip(set)` on a character list: remove characters of
`set` from both ends. -/
def pyStripSetL (set : List Char) (l : List Char) : List Char :=
  dropTrailing (fun c => set.contains c) (l.dropWhile (fun c => set.contains c))

/-- Python `str.strip(set)`. -/
def pyStripSet (set : List Char) (s : String) : String := ⟨pyStripSetL set s.data⟩

/-- Python `str.lower()` on one character (ASCII scope). -/
def pyCharLower (c : Char) : Char :=
  if 65 ≤ c.toNat ∧ c.toNat ≤ 90 then Char.ofNat (c.toNat + 32) else c

/-- Python `str.lower()` on a character list. -/
def pyLowerL (l : List Char) : List Char := l.map pyCharLower

/-- Python `str.lower()`. -/
def pyLower (s : String) : String := ⟨pyLowerL s.data⟩

/-- Python `str.split(sep)` for a one-character separator: split at every
occurrence, keeping empty pieces (so the result is always non-empty). -/
def pySplitL (sep : Char) : List Char → List (List Char)
  | [] => [[]]
  | c :: cs =>
    match pySplitL sep cs with
    | [] => [[]]
    | p :: ps => if c = sep then [] :: p :: ps else (c :: p) :: ps

/-- Python `needle in haystack` substring test. -/
def containsSub (needle : List Char) : List Char → Bool
  | [] => needle.isEmpty
  | c :: cs => needle.isPrefixOf (c :: cs) || containsSub needle cs

/-- The apostrophe character (used inside the regex pattern strings). -/
def aposC : Char := Char.ofNat 39

/-- The apostrophe as a one-character string. -/
def apos : String := String.singleton aposC

/-- The raw greeting regex pattern strings of `IntentClassifier.__init__`
(src/intent_classifier.py lines 8-16). -/
def greeting_patterns : List String := [
  "\\b(hi|hello|hey|good morning|good afternoon|good evening|greetings)\\b",
  "\\b(how are you|how do you do|what\\" ++ apos ++ "s up|sup)\\b",
  "\\b(nice to meet you|pleased to meet you)\\b",
  "\\b(good day|good night)\\b",
  "^[!]*[hH][eE][lL][lL][oO][!]*$",
  "^[!]*[hH][iI][!]*$",
  "^[!]*[hH][eE][yY][!]*$"]

/-- The raw query regex pattern strings (src/intent_classifier.py lines 18-30). -/
def query_patterns : List String := [
  "\\b(what|how|why|when|where|who|which|can you|could you|would you)\\b",
  "\\b(explain|describe|tell me|show me|help me)\\b",
  "\\b(how to|how do|how can|how does)\\b",
  "\\b(what is|what are|what does|what do)\\b",
  "\\b(why is|why are|why does|why do)\\b",
  "\\b(when is|when are|when does|when do)\\b",
  "\\b(where is|where are|where does|where do)\\b",
  "\\b(who is|who are|who does|who do)\\b",
  "\\b(which is|which are|which does|which do)\\b",
  "\\b(can you|could you|would you|will you)\\b",
  "\\b(please|help|assist|support)\\b"]

/-- The raw information regex pattern strings (src/intent_classifier.py lines 32-40). -/
def information_patterns : List String := [
  "\\b(here is|here are|let me tell you|i want to tell you)\\b",
  "\\b(i have|i know|i think|i believe|i feel)\\b",
  "\\b(in my opinion|according to|based on)\\b",
  "\\b(i want to share|i" ++ "\\" ++ apos ++ "d like to share|let me share)\\b",
  "\\b(this is|these are|that is|those are)\\b",
  "\\b(i found|i discovered|i learned)\\b",
  "\\b(update|news|information|data|fact)\\b"]

/-- The raw feedback regex pattern strings (src/intent_classifier.py lines 42-55). -/
def feedback_patterns : List String := [
  "\\b(thank you|thanks|thx|thank)\\b",
  "\\b(great|awesome|excellent|amazing|wonderful|fantastic)\\b",
  "\\b(good|nice|cool|sweet|perfect|brilliant)\\b",
  "\\b(bad|terrible|awful|horrible|disappointing)\\b",
  "\\b(wrong|incorrect|not right|not correct)\\b",
  "\\b(like|love|enjoy|appreciate)\\b",
  "\\b(dislike|hate|don\\" ++ apos ++ "t like|not good)\\b",
  "\\b(helpful|useful|useless|not helpful)\\b",
  "\\b(clear|confusing|unclear|understand|don\\" ++ apos ++ "t understand)\\b",
  "\\b(agree|disagree|correct|incorrect)\\b",
  "\\b(rate|rating|score|review|feedback)\\b",
  "\\b(improve|better|worse|change)\\b"]

/-- Embeds `IntentClassifier._calculate_score`
(src/intent_classifier.py lines 103-118).  `srch p m` abstracts
`re.compile(p, re.IGNORECASE).search(m) is not None`. -/
def calculate_score (srch : String → String → Bool) (message : String)
    (patterns : List String) : ℚ :=
  let nMatched : ℕ := (patterns.filter (fun p => srch p message)).length
  let total : ℕ := patterns.length
  let base : ℚ := if 0 < total then (nMatched : ℚ) / (total : ℚ) else 0
  let length_factor : ℚ := max (1/2) (1 - (message.length : ℚ) / 200)
  min 1 (base * length_factor)

/-- Python `max(iterable, key=...)` over an association list: the first
element attaining the maximal value wins (later elements replace the
current best only when strictly greater). -/
def pyMaxBy : (String × ℚ) → List (String × ℚ) → (String × ℚ)
  | best, [] => best
  | best, x :: xs => pyMaxBy (if best.2 < x.2 then x else best) xs

/-- Embeds `IntentClassifier.classify_intent`
(src/intent_classifier.py lines 63-101): empty/whitespace input short-cuts
to `(query, 0.0)`; otherwise the stripped, lowercased message is scored
against the four pattern families and the dict-ordered argmax
(greetings, query, information, feedback) is taken, defaulting to
`(query, 0.1)` when the maximum is below 0.1. -/
def classify_intent (srch : String → String → Bool) (message : String) : String × ℚ :=
  if pyStrip message = "" then ("query", 0)
  else
    let m := pyLower (pyStrip message)
    let g := calculate_score srch m greeting_patterns
    let q := calculate_score srch m query_patterns
    let i := calculate_score srch m information_patterns
    let f := calculate_score srch m feedback_patterns
    let best := pyMaxBy ("greetings", g) [("query", q), ("information", i), ("feedback", f)]
    if best.2 < 1/10 then ("query", 1/10) else best

/-- Python `\w` word character (ASCII scope). -/
def isWordChar (c : Char) : Bool := c.isAlphanum || c = '_'

/-- Accumulator worker for `pyFindWords`: `acc` holds the reversed current
word run. -/
def tokensAux : List Char → List Char → List (List Char)
  | [], acc => if acc.isEmpty then [] else [acc.reverse]
  | c :: cs, acc =>
    if isWordChar c then tokensAux cs (c :: acc)
    else if acc.isEmpty then tokensAux cs []
    else acc.reverse :: tokensAux cs []

/-- Python `re.findall(r'\b\w+\b', s)`: the maximal runs of word
characters, in order. -/
def pyFindWords (l : List Char) : List (List Char) := tokensAux l []

/-- The stop-word set of `extract_keywords` (identical in
src/intent_classifier.py lines 148-154 and src/ai_intent_classifier.py
lines 227-233). -/
def stop_words : List String := [
  "the", "a", "an", "and", "or", "but", "in", "on", "at", "to", "for",
  "of", "with", "by", "is", "are", "was", "were", "be", "been", "being",
  "have", "has", "had", "do", "does", "did", "will", "would", "could",
  "should", "may", "might", "can", "this", "that", "these", "those",
  "i", "you", "he", "she", "it", "we", "they", "me", "him", "her", "us", "them"]

/-- Embeds `extract_keywords` (identical in both classifier classes:
src/intent_classifier.py lines 142-157, src/ai_intent_classifier.py
lines 221-236): tokenize the lowercased message, keep tokens that are not
stop words and longer than 2 characters, and return the first 10. -/
def extract_keywords (message : String) : List String :=
  let words : List String := (pyFindWords (pyLowerL message.data)).map (fun w => ⟨w⟩)
  let keywords := words.filter
    (fun w => !(stop_words.contains w) && decide (2 < w.length))
  keywords.take 10

/-- The four intent category keys of `AIIntentClassifier.intent_categories`
in dict insertion order (src/ai_intent_classifier.py lines 14-51). -/
def intent_keys : List String := ["greetings", "query", "information", "feedback"]

/-- Numeric value of a digit run (most significant first). -/
def digitsVal (ds : List Char) : ℕ := ds.foldl (fun n c => 10 * n + (c.toNat - 48)) 0

/-- First match of the Python regex `(\d+\.?\d*)` in a character list,
converted by `float(...)`: the leading digit run, optionally followed by a
decimal point and a further digit run. -/
def findFirstNumber : List Char → Option ℚ
  | [] => none
  | c :: cs =>
    if c.isDigit then
      let ds := (c :: cs).takeWhile Char.isDigit
      let rest := (c :: cs).dropWhile Char.isDigit
      let fs := match rest with
        | '.' :: r => r.takeWhile Char.isDigit
        | _ => []
      some ((digitsVal ds : ℚ) + (digitsVal fs : ℚ) / ((10 : ℚ) ^ fs.length))
    else findFirstNumber cs

/-- Embeds `AIIntentClassifier._extract_intent_from_text`
(src/ai_intent_classifier.py lines 177-203): scan the lowercased response
for the first intent key occurring as a substring; confidence is the first
numeral in the response (values > 1 divided by 100), defaulting to 0.8. -/
def extract_intent_from_text (response : String) : Option (String × ℚ) :=
  let lower := pyLowerL response.data
  match intent_keys.find? (fun i => containsSub i.data lower) with
  | none => none
  | some i =>
    let confidence : ℚ :=
      match findFirstNumber response.data with
      | none => 4/5
      | some v => if 1 < v then v / 100 else v
    some (i, confidence)

/-- Outcome of the embedded-JSON step of `_parse_ai_response`
(`re.search` for `\x7b[^\x7d]*"intent"[^\x7d]*\x7d` followed by
`json.loads`), abstracted as an oracle: `noMatch` = the regex found
nothing; `loadError` = `json.loads` (or anything else in the `try` block)
raised; `loaded i c` = a dict was parsed, with `i` its `intent` entry when
present and a string, and `c` its `confidence` entry when present and
numeric. -/
inductive JsonOutcome where
  | noMatch : JsonOutcome
  | loadError : JsonOutcome
  | loaded : Option String → Option ℚ → JsonOutcome

/-- Embeds `AIIntentClassifier._parse_ai_response`
(src/ai_intent_classifier.py lines 145-175): on a parsed dict whose intent
is one of the four category keys and whose confidence is numeric, clamp
the confidence into [0, 1]; on any other JSON outcome except a raised
exception, fall through to `extract_intent_from_text`; a raised exception
is caught and yields `none`. -/
def parse_ai_response (jo : String → JsonOutcome) (response : String) :
    Option (String × ℚ) :=
  let r := pyStrip response
  match jo r with
  | .loadError => none
  | .noMatch => extract_intent_from_text r
  | .loaded intentF confF =>
    match intentF, confF with
    | some i, some c =>
      if intent_keys.contains i then some (i, max 0 (min 1 c))
      else extract_intent_from_text r
    | _, _ => extract_intent_from_text r

/-- Embeds `AIIntentClassifier.classify_intent`
(src/ai_intent_classifier.py lines 107-143).  The gateway call
(`LMStudioClient.chat_completion` on the classification prompt built from
the message) is abstracted as `gateway : String → Except Unit String`
applied to the message; `.error` models any raised transport exception,
which the code catches and turns into `(query, 0.3)`.  A successful call
whose response parses to nothing yields `(query, 0.5)`. -/
def ai_classify_intent (gateway : String → Except Unit String)
    (jo : String → JsonOutcome) (message : String) : String × ℚ :=
  if pyStrip message = "" then ("query", 1/10)
  else
    match gateway message with
    | .error _ => ("query", 3/10)
    | .ok response =>
      match parse_ai_response jo response with
      | some (i, c) => (i, c)
      | none => ("query", 1/2)

/-- The analyzer's characterization dict (src/chain_query_generator.py
lines 128-134): `rtype` is the `"type"` entry. -/
structure Analysis where
  rtype : String
  topics : List String
  complexity : String
  completeness : String
  exploration : String
deriving DecidableEq, Repr

/-- The default characterization, used both as the parse seed
(src/chain_query_generator.py lines 128-134) and as the analyzer's
gateway-failure fallback (lines 118-124; the two dicts are identical). -/
def default_analysis : Analysis :=
  ⟨"general", ["general information"], "moderate", "complete", "general aspects"⟩

/-- Everything after the first occurrence of `sep` (Python
`s.split(sep, 1)[1]` when `sep` occurs). -/
def afterFirst (sep : Char) (l : List Char) : List Char :=
  (l.dropWhile (fun c => !(c = sep))).drop 1

/-- One line of `ChainQueryGenerator._parse_analysis`
(src/chain_query_generator.py lines 136-148): a recognized `Type:` /
`Topics:` / `Complexity:` / `Completeness:` / `Exploration:` prefix
overwrites the corresponding field; other lines are ignored. -/
def parse_analysis_line (a : Analysis) (line : List Char) : Analysis :=
  if ("Type:".data).isPrefixOf line then
    { a with rtype := ⟨pyLowerL (pyStripL (afterFirst ':' line))⟩ }
  else if ("Topics:".data).isPrefixOf line then
    { a with topics :=
        (pySplitL ',' (pyStripL (afterFirst ':' line))).map (fun t => ⟨pyStripL t⟩) }
  else if ("Complexity:".data).isPrefixOf line then
    { a with complexity := ⟨pyLowerL (pyStripL (afterFirst ':' line))⟩ }
  else if ("Completeness:".data).isPrefixOf line then
    { a with completeness := ⟨pyLowerL (pyStripL (afterFirst ':' line))⟩ }
  else if ("Exploration:".data).isPrefixOf line then
    { a with exploration := ⟨pyStripL (afterFirst ':' line)⟩ }
  else a

/-- Embeds `ChainQueryGenerator._parse_analysis`
(src/chain_query_generator.py lines 126-150). -/
def parse_analysis (response : String) : Analysis :=
  (pySplitL '\n' (pyStripL response.data)).foldl parse_analysis_line default_analysis

/-- Embeds `ChainQueryGenerator._analyze_response`
(src/chain_query_generator.py lines 82-124); the gateway call on the
analysis prompt is abstracted as its outcome `gwA`, and a raised
exception (`.error`) is caught, yielding the default characterization. -/
def analyze_response (gwA : Except Unit String) : Analysis :=
  match gwA with
  | .error _ => default_analysis
  | .ok r => parse_analysis r

/-- The character set stripped from the ends of a candidate line
(src/chain_query_generator.py line 208). -/
def strip_marker_set : List Char := "•-*123456789. ".data

/-- Embeds `ChainQueryGenerator._parse_questions`
(src/chain_query_generator.py lines 199-221): keep stripped lines that
contain a question mark and, after stripping the leading/trailing marker
characters, exceed 10 characters; if none qualify, split the response on
periods and keep whitespace-stripped fragments containing a question mark
that exceed 10 characters; finally truncate to 3. -/
def parse_questions (response : String) : List String :=
  let lines := pySplitL '\n' (pyStripL response.data)
  let step1 : List String := lines.filterMap (fun l0 =>
    let l := pyStripL l0
    if !l.isEmpty && (l.contains '?' || decide (l.getLast? = some '?')) then
      let q := pyStripSetL strip_marker_set l
      if !q.isEmpty && decide (10 < q.length) then some ⟨q⟩ else none
    else none)
  let qs := if step1.isEmpty then
      (pySplitL '.' response.data).filterMap (fun s =>
        if s.contains '?' then
          let q := pyStripL s
          if decide (10 < q.length) then some (⟨q⟩ : String) else none
        else none)
    else step1
  qs.take 3

/-- Embeds `ChainQueryGenerator._get_fallback_questions`
(src/chain_query_generator.py lines 223-242). -/
def get_fallback_questions (intent : String) : List String :=
  if intent = "query" then
    ["Would you like to know more about this?",
     "Do you want me to explain this in more detail?",
     "Should I tell you more about this topic?"]
  else if intent = "information" then
    ["Would you like to explore this further?",
     "Do you want to know more about this?",
     "Should I dive deeper into this topic?"]
  else
    ["Would you like to know more about this?",
     "Do you want to explore this further?",
     "Should I tell you more about this?"]

/-- Embeds `ChainQueryGenerator._generate_questions`
(src/chain_query_generator.py lines 152-197): on a raised gateway
exception the fallback list is selected by the analysis's `type` field
(`response_type`), not by the classified intent. -/
def generate_questions (gwG : Except Unit String) (analysis : Analysis) : List String :=
  match gwG with
  | .error _ => get_fallback_questions analysis.rtype
  | .ok r => parse_questions r

/-- Embeds `ChainQueryGenerator.generate_follow_up_questions`
(src/chain_query_generator.py lines 40-56): analyze, then generate.  Both
inner steps catch their own gateway exceptions, so the outer
`except`-with-`_get_fallback_questions(intent)` handler (lines 54-56) is
unreachable on gateway failures and is not modelled. -/
def generate_follow_up_questions (gwA gwG : Except Unit String)
    (_intent : String) : List String :=
  generate_questions gwG (analyze_response gwA)

/-- Embeds `ChainQueryGenerator.append_best_follow_up_to_response`
(src/chain_query_generator.py lines 58-80): empty candidate list returns
the reply unchanged; otherwise the first candidate, stripped of
surrounding `"` characters, is appended after a blank line. -/
def append_best_follow_up_to_response (gwA gwG : Except Unit String)
    (ai_response : String) (intent : String) : String :=
  match generate_follow_up_questions gwA gwG intent with
  | [] => ai_response
  | q :: _ => ai_response ++ "\n\n" ++ (⟨pyStripSetL ['"'] q.data⟩ : String)

/-- Embeds `ChainQueryGenerator.should_generate_follow_up`
(src/chain_query_generator.py lines 244-251). -/
def should_generate_follow_up (intent : String) (response_length : ℕ) : Bool :=
  if intent = "greetings" ∨ response_length < 50 then false
  else (["query", "information", "feedback"] : List String).contains intent

/-- Modelled from the spec: "Ties broken by a fixed iteration order over
the four intents" — the first intent in the order greetings, query,
information, feedback whose score attains the maximum.  Spec-side
counterpart of the source's `max(scores, key=scores.get)` over the
insertion-ordered dict, to be proved equivalent. -/
def argmaxFixedOrder (g q i f : ℚ) : String × ℚ :=
  if q ≤ g ∧ i ≤ g ∧ f ≤ g then ("greetings", g)
  else if i ≤ q ∧ f ≤ q then ("query", q)
  else if f ≤ i then ("information", i)
  else ("feedback", f)

/-- Modelled from the spec: `classify_intent` with the argmax spelled as
the fixed-iteration-order tie-breaking chain of `argmaxFixedOrder`. -/
def classify_intent_fixed_order (srch : String → String → Bool)
    (message : String) : String × ℚ :=
  if pyStrip message = "" then ("query", 0)
  else
    let m := pyLower (pyStrip message)
    let g := calculate_score srch m greeting_patterns
    let q := calculate_score srch m query_patterns
    let i := calculate_score srch m information_patterns
    let f := calculate_score srch m feedback_patterns
    let best := argmaxFixedOrder g q i f
    if best.2 < 1/10 then ("query", 1/10) else best

section CharFacts

theorem char_eq_of_toNat_eq {c d : Char} (h : c.toNat = d.toNat) : c = d :=
  Char.eq_of_val_eq (UInt32.ext h)

theorem char_eq_iff_toNat {c d : Char} : c = d ↔ c.toNat = d.toNat :=
  ⟨fun h => h ▸ rfl, char_eq_of_toNat_eq⟩

theorem charOfNat_toNat {n : ℕ} (h : n < 55296) : (Char.ofNat n).toNat = n := by
  have hv : n.isValidChar := Or.inl h
  simp only [Char.ofNat, hv, dif_pos, Char.ofNatAux, Char.toNat, UInt32.toNat,
    BitVec.toNat_ofNatLt]

theorem charToNat_lt (c : Char) : c.toNat < 1114112 := by
  rcases c with ⟨v, hvalid⟩
  rcases hvalid with h | ⟨_, h2⟩
  · exact Nat.lt_trans h (by decide)
  · exact h2

theorem pyCharLower_toNat (c : Char) :
    (pyCharLower c).toNat =
      if 65 ≤ c.toNat ∧ c.toNat ≤ 90 then c.toNat + 32 else c.toNat := by
  unfold pyCharLower
  split
  · rename_i h
    exact charOfNat_toNat (by omega)
  · rfl

theorem pyCharLower_not_upper (c : Char) :
    ¬(65 ≤ (pyCharLower c).toNat ∧ (pyCharLower c).toNat ≤ 90) := by
  rw [pyCharLower_toNat]
  split <;> omega

theorem isPySpace_iff_toNat (c : Char) :
    isPySpace c = true ↔
      (c.toNat = 32 ∨ c.toNat = 9 ∨ c.toNat = 10 ∨ c.toNat = 13 ∨
       c.toNat = 11 ∨ c.toNat = 12) := by
  simp only [isPySpace, Bool.or_eq_true, decide_eq_true_eq, char_eq_iff_toNat,
    show (' ' : Char).toNat = 32 from rfl, show ('\t' : Char).toNat = 9 from rfl,
    show ('\n' : Char).toNat = 10 from rfl, show ('\r' : Char).toNat = 13 from rfl,
    show ('\x0b' : Char).toNat = 11 from rfl, show ('\x0c' : Char).toNat = 12 from rfl]
  tauto

theorem isPySpace_pyCharLower (c : Char) :
    isPySpace (pyCharLower c) = isPySpace c := by
  by_cases h : 65 ≤ c.toNat ∧ c.toNat ≤ 90
  · have h1 : (pyCharLower c).toNat = c.toNat + 32 := by
      rw [pyCharLower_toNat, if_pos h]
    have h2 : isPySpace (pyCharLower c) = false := by
      rw [Bool.eq_false_iff]
      intro hc
      rw [isPySpace_iff_toNat] at hc
      omega
    have h3 : isPySpace c = false := by
      rw [Bool.eq_false_iff]
      intro hc
      rw [isPySpace_iff_toNat] at hc
      omega
    rw [h2, h3]
  · unfold pyCharLower
    rw [if_neg h]

end CharFacts

section ListFacts

theorem mem_dropWhile_of_mem {α : Type} {p : α → Bool} {l : List α} {c : α}
    (hc : c ∈ l) (hp : p c = false) : c ∈ l.dropWhile p := by
  induction l with
  | nil => cases hc
  | cons a l ih =>
    rw [List.dropWhile_cons]
    split
    · rename_i ha
      rcases List.mem_cons.mp hc with rfl | hm
      · rw [hp] at ha; cases ha
      · exact ih hm
    · exact hc

theorem mem_dropTrailing_of_mem {p : Char → Bool} {l : List Char} {c : Char}
    (hc : c ∈ l) (hp : p c = false) : c ∈ dropTrailing p l := by
  unfold dropTrailing
  rw [List.mem_reverse]
  exact mem_dropWhile_of_mem (List.mem_reverse.mpr hc) hp

theorem mem_pyStripL_of_mem {l : List Char} {c : Char}
    (hc : c ∈ l) (hp : isPySpace c = false) : c ∈ pyStripL l :=
  mem_dropTrailing_of_mem (mem_dropWhile_of_mem hc hp) hp

theorem mem_pyStripSetL_of_mem {set l : List Char} {c : Char}
    (hc : c ∈ l) (hp : set.contains c = false) : c ∈ pyStripSetL set l :=
  mem_dropTrailing_of_mem (mem_dropWhile_of_mem hc hp) hp

theorem dropWhile_append_of_all {α : Type} {p : α → Bool} {w r : List α}
    (hw : ∀ c ∈ w, p c = true) :
    List.dropWhile p (w ++ r) = List.dropWhile p r := by
  rw [List.dropWhile_append]
  have h : List.dropWhile p w = [] := List.dropWhile_eq_nil_iff.mpr hw
  rw [h]
  rfl

theorem dropTrailing_append_of_all {p : Char → Bool} {x w : List Char}
    (hw : ∀ c ∈ w, p c = true) :
    dropTrailing p (x ++ w) = dropTrailing p x := by
  unfold dropTrailing
  rw [List.reverse_append, dropWhile_append_of_all (by simpa using hw)]

theorem pyStripL_pad {w1 w2 l : List Char}
    (h1 : ∀ c ∈ w1, isPySpace c = true) (h2 : ∀ c ∈ w2, isPySpace c = true) :
    pyStripL (w1 ++ l ++ w2) = pyStripL l := by
  unfold pyStripL
  rw [List.append_assoc, dropWhile_append_of_all h1]
  rcases Classical.em (List.dropWhile isPySpace l = []) with he | he
  · rw [List.dropWhile_append, he]
    simp only [List.isEmpty_nil, if_pos]
    rw [List.dropWhile_eq_nil_iff.mpr h2]
  · rw [List.dropWhile_append]
    have hne : (List.dropWhile isPySpace l).isEmpty = false := by
      rw [List.isEmpty_eq_false_iff_exists_mem]
      rcases List.exists_mem_of_ne_nil _ he with ⟨x, hx⟩
      exact ⟨x, hx⟩
    rw [hne]
    simp only [Bool.false_eq_true, if_false]
    exact dropTrailing_append_of_all h2

theorem pyLowerL_dropWhile (l : List Char) :
    pyLowerL (List.dropWhile isPySpace l) = List.dropWhile isPySpace (pyLowerL l) := by
  unfold pyLowerL
  induction l with
  | nil => rfl
  | cons a l ih =>
    simp only [List.map_cons, List.dropWhile_cons, isPySpace_pyCharLower]
    split
    · exact ih
    · rfl

theorem pyLowerL_pyStripL (l : List Char) :
    pyLowerL (pyStripL l) = pyStripL (pyLowerL l) := by
  unfold pyStripL dropTrailing
  have hrev : ∀ x : List Char, pyLowerL x.reverse = (pyLowerL x).reverse := by
    intro x; unfold pyLowerL; rw [List.map_reverse]
  calc pyLowerL ((List.dropWhile isPySpace
          (List.dropWhile isPySpace l).reverse).reverse)
      = (pyLowerL (List.dropWhile isPySpace
          (List.dropWhile isPySpace l).reverse)).reverse := hrev _
    _ = (List.dropWhile isPySpace
          (pyLowerL (List.dropWhile isPySpace l).reverse)).reverse := by
          rw [pyLowerL_dropWhile]
    _ = (List.dropWhile isPySpace
          ((pyLowerL (List.dropWhile isPySpace l)).reverse)).reverse := by
          rw [hrev]
    _ = (List.dropWhile isPySpace
          ((List.dropWhile isPySpace (pyLowerL l)).reverse)).reverse := by
          rw [pyLowerL_dropWhile]

end ListFacts

section ScoreFacts

theorem calculate_score_nonneg (srch : String → String → Bool) (m : String)
    (ps : List String) : 0 ≤ calculate_score srch m ps := by
  simp only [calculate_score]
  apply le_min (by norm_num)
  apply mul_nonneg
  · split
    · positivity
    · exact le_refl 0
  · calc (0 : ℚ) ≤ 1/2 := by norm_num
      _ ≤ max (1/2) (1 - (m.length : ℚ) / 200) := le_max_left _ _

theorem calculate_score_le_one (srch : String → String → Bool) (m : String)
    (ps : List String) : calculate_score srch m ps ≤ 1 := by
  simp only [calculate_score]
  exact min_le_left _ _

theorem pyMaxBy_nil (b : String × ℚ) : pyMaxBy b [] = b := rfl

theorem pyMaxBy_cons (b x : String × ℚ) (xs : List (String × ℚ)) :
    pyMaxBy b (x :: xs) = pyMaxBy (if b.2 < x.2 then x else b) xs := rfl

theorem pyMaxBy_mem (b : String × ℚ) (xs : List (String × ℚ)) :
    pyMaxBy b xs ∈ b :: xs := by
  induction xs generalizing b with
  | nil => rw [pyMaxBy_nil]; exact List.mem_singleton_self b
  | cons x xs ih =>
    rw [pyMaxBy_cons]
    rcases List.mem_cons.mp (ih (if b.2 < x.2 then x else b)) with he | hm
    · rw [he]
      split
      · exact List.mem_cons_of_mem _ (List.mem_cons_self _ _)
      · exact List.mem_cons_self _ _
    · exact List.mem_cons_of_mem _ (List.mem_cons_of_mem _ hm)

theorem pyMaxBy_intents (g q i f : ℚ) :
    pyMaxBy ("greetings", g) [("query", q), ("information", i), ("feedback", f)] =
      argmaxFixedOrder g q i f := by
  rw [pyMaxBy_cons, pyMaxBy_cons, pyMaxBy_cons, pyMaxBy_nil]
  unfold argmaxFixedOrder
  dsimp only
  rcases lt_or_le g q with h1 | h1
  · rw [if_pos h1]
    dsimp only
    rcases lt_or_le q i with h2 | h2
    · rw [if_pos h2]
      dsimp only
      rcases lt_or_le i f with h3 | h3
      · rw [if_pos h3,
          if_neg (fun hc => absurd hc.1 (not_le.mpr h1)),
          if_neg (fun hc => absurd hc.1 (not_le.mpr h2)),
          if_neg (not_le.mpr h3)]
      · rw [if_neg (not_lt.mpr h3),
          if_neg (fun hc => absurd hc.1 (not_le.mpr h1)),
          if_neg (fun hc => absurd hc.1 (not_le.mpr h2)),
          if_pos h3]
    · rw [if_neg (not_lt.mpr h2)]
      dsimp only
      rcases lt_or_le q f with h3 | h3
      · rw [if_pos h3,
          if_neg (fun hc => absurd hc.1 (not_le.mpr h1)),
          if_neg (fun hc => absurd hc.2 (not_le.mpr h3)),
          if_neg (not_le.mpr (lt_of_le_of_lt h2 h3))]
      · rw [if_neg (not_lt.mpr h3),
          if_neg (fun hc => absurd hc.1 (not_le.mpr h1)),
          if_pos ⟨h2, h3⟩]
  · rw [if_neg (not_lt.mpr h1)]
    dsimp only
    rcases lt_or_le g i with h2 | h2
    · rw [if_pos h2]
      dsimp only
      rcases lt_or_le i f with h3 | h3
      · rw [if_pos h3,
          if_neg (fun hc => absurd hc.2.1 (not_le.mpr h2)),
          if_neg (fun hc => absurd (le_trans hc.1 h1) (not_le.mpr h2)),
          if_neg (not_le.mpr h3)]
      · rw [if_neg (not_lt.mpr h3),
          if_neg (fun hc => absurd hc.2.1 (not_le.mpr h2)),
          if_neg (fun hc => absurd (le_trans hc.1 h1) (not_le.mpr h2)),
          if_pos h3]
    · rw [if_neg (not_lt.mpr h2)]
      dsimp only
      rcases lt_or_le g f with h3 | h3
      · rw [if_pos h3,
          if_neg (fun hc => absurd hc.2.2 (not_le.mpr h3)),
          if_neg (fun hc => absurd (le_trans hc.2 h1) (not_le.mpr h3)),
          if_neg (not_le.mpr (lt_of_le_of_lt h2 h3))]
      · rw [if_neg (not_lt.mpr h3), if_pos ⟨h1, h2, h3⟩]

theorem classify_intent_eq_fixed_order (srch : String → String → Bool)
    (m : String) :
    classify_intent srch m = classify_intent_fixed_order srch m := by
  unfold classify_intent classify_intent_fixed_order
  by_cases he : pyStrip m = ""
  · rw [if_pos he, if_pos he]
  · rw [if_neg he, if_neg he]
    simp only [pyMaxBy_intents]

end ScoreFacts

/-- C7: `shouldFollowUp` is a pure total function: false for the greeting
intent at every length, false below length 50 for every intent, and true
exactly for intents in {query, information, feedback} with length ≥ 50;
in particular `shouldFollowUp(query, 49) = false`,
`shouldFollowUp(query, 50) = true`, `shouldFollowUp(feedback, 200) = true`. -/
theorem should_generate_follow_up_spec :
    (∀ n, should_generate_follow_up "greetings" n = false) ∧
    (∀ intent n, n < 50 → should_generate_follow_up intent n = false) ∧
    (∀ intent n, should_generate_follow_up intent n = true ↔
      ((intent = "query" ∨ intent = "information" ∨ intent = "feedback") ∧ 50 ≤ n)) ∧
    should_generate_follow_up "query" 49 = false ∧
    should_generate_follow_up "query" 50 = true ∧
    should_generate_follow_up "feedback" 200 = true := by
  refine ⟨fun n => by simp [should_generate_follow_up],
    fun intent n h => by simp [should_generate_follow_up, h],
    fun intent n => ?_, by decide, by decide, by decide⟩
  unfold should_generate_follow_up
  split
  · rename_i h
    constructor
    · intro hfalse; exact absurd hfalse (by simp)
    · rintro ⟨hint, hlen⟩
      rcases h with h | h
      · rcases hint with h2 | h2 | h2 <;> simp [h2] at h
      · omega
  · rename_i h
    push_neg at h
    simp only [List.contains, List.elem_eq_mem, decide_eq_true_eq, List.mem_cons,
      List.mem_singleton, List.not_mem_nil, or_false]
    constructor
    · intro hmem; exact ⟨hmem, by omega⟩
    · intro hint; exact hint.1

/-- Witness for C7: the theorem applied at concrete inputs, discharging
its hypotheses there. -/
theorem should_generate_follow_up_spec_witness :
    should_generate_follow_up "hello" 30 = false ∧
    should_generate_follow_up "greetings" 200 = false :=
  ⟨should_generate_follow_up_spec.2.1 "hello" 30 (by decide),
   should_generate_follow_up_spec.1 200⟩

/-- C9: the pattern-based classify is deterministic — two calls on the
same message (with the same compiled patterns, modelled by the matcher
`srch`) return identical pairs — and its tie-breaking is exactly the
first-attains-the-maximum rule over the fixed dict iteration order
greetings, query, information, feedback (`classify_intent_fixed_order`). -/
theorem classify_intent_deterministic :
    ∀ srch m, classify_intent srch m = classify_intent srch m ∧
      classify_intent srch m = classify_intent_fixed_order srch m :=
  fun srch m => ⟨rfl, classify_intent_eq_fixed_order srch m⟩

/-- Core congruence for C10: the pattern-based result depends only on the
stripped, lowercased text. -/
theorem classify_intent_congr (srch : String → String → Bool) {m m' : String}
    (h : pyLowerL (pyStripL m.data) = pyLowerL (pyStripL m'.data)) :
    classify_intent srch m = classify_intent srch m' := by
  have hempty : pyStrip m = "" ↔ pyStrip m' = "" := by
    constructor
    · intro he
      have h0 : pyStripL m.data = [] := congrArg String.data he
      have h1 : pyLowerL (pyStripL m'.data) = [] := by
        rw [← h, h0]; rfl
      have h2 : pyStripL m'.data = [] := by
        have := congrArg List.length h1
        simpa [pyLowerL, List.length_eq_zero] using this
      exact congrArg String.mk h2
    · intro he
      have h0 : pyStripL m'.data = [] := congrArg String.data he
      have h1 : pyLowerL (pyStripL m.data) = [] := by
        rw [h, h0]; rfl
      have h2 : pyStripL m.data = [] := by
        have := congrArg List.length h1
        simpa [pyLowerL, List.length_eq_zero] using this
      exact congrArg String.mk h2
  unfold classify_intent
  by_cases he : pyStrip m = ""
  · rw [if_pos he, if_pos (hempty.mp he)]
  · rw [if_neg he, if_neg (fun hc => he (hempty.mpr hc))]
    have hm : pyLower (pyStrip m) = pyLower (pyStrip m') := congrArg String.mk h
    rw [hm]

/-- C10: the pattern-based classify is invariant under letter case and
under added leading/trailing whitespace: a case variant (same lowercased
character sequence) classifies identically, and so does the message with
whitespace padding on either side — because the non-empty message is
stripped and lowercased before scoring. -/
theorem classify_intent_case_ws_invariant :
    (∀ srch (m m' : String), pyLowerL m.data = pyLowerL m'.data →
      classify_intent srch m = classify_intent srch m') ∧
    (∀ srch (m w1 w2 : String),
      (∀ c ∈ w1.data, isPySpace c = true) → (∀ c ∈ w2.data, isPySpace c = true) →
      classify_intent srch ⟨w1.data ++ m.data ++ w2.data⟩ = classify_intent srch m) := by
  constructor
  · intro srch m m' h
    apply classify_intent_congr
    rw [pyLowerL_pyStripL, pyLowerL_pyStripL, h]
  · intro srch m w1 w2 h1 h2
    apply classify_intent_congr
    show pyLowerL (pyStripL (w1.data ++ m.data ++ w2.data)) = _
    rw [pyStripL_pad h1 h2]

/-- Witness for C10: the theorem applied to the concrete case variant
"HeLLo" of "hello" and to "hello" padded with spaces and a tab. -/
theorem classify_intent_case_ws_invariant_witness :
    (pyLowerL "HeLLo".data = pyLowerL "hello".data ∧
      classify_intent (fun _ _ => true) "HeLLo" =
        classify_intent (fun _ _ => true) "hello") ∧
    ((∀ c ∈ "  ".data, isPySpace c = true) ∧ (∀ c ∈ "\t".data, isPySpace c = true) ∧
      classify_intent (fun _ _ => true) ⟨"  ".data ++ "hello".data ++ "\t".data⟩ =
        classify_intent (fun _ _ => true) "hello") :=
  ⟨⟨by decide, classify_intent_case_ws_invariant.1 _ "HeLLo" "hello" (by decide)⟩,
   ⟨by decide, by decide,
    classify_intent_case_ws_invariant.2 _ "hello" "  " "\t" (by decide) (by decide)⟩⟩

/-- Counterexample for C3: the claim says the pattern-based classify
returns confidence 0.1 on the empty string, but
`IntentClassifier.classify_intent` (src/intent_classifier.py line 76)
returns `('query', 0.0)` there (and on whitespace-only input). -/
theorem classify_empty_counterexample :
    classify_intent (fun _ _ => true) "" = ("query", 0) ∧
    classify_intent (fun _ _ => true) "   " = ("query", 0) ∧
    (("query", (0 : ℚ)) : String × ℚ) ≠ ("query", 1/10) := by
  refine ⟨by decide, by decide, fun h => ?_⟩
  have h0 : (0 : ℚ) = 1/10 := congrArg Prod.snd h
  norm_num at h0

/-- C3 amended: on empty or whitespace-only input the pattern-based
classify returns `(query, 0.0)` and the generative classify returns
`(query, 0.1)`; neither consults its matcher/gateway (the result is the
same for every `srch`, `gateway` and `jo`, which are universally
quantified here). -/
theorem classify_empty_input_spec :
    ∀ srch gateway jo (m : String), pyStrip m = "" →
      classify_intent srch m = ("query", 0) ∧
      ai_classify_intent gateway jo m = ("query", 1/10) := by
  intro srch gateway jo m h
  constructor
  · unfold classify_intent; rw [if_pos h]
  · unfold ai_classify_intent; rw [if_pos h]

/-- Witness for C3 (amended): applied at the whitespace-only string. -/
theorem classify_empty_input_spec_witness :
    pyStrip "  " = "" ∧
    (classify_intent (fun _ _ => true) "  " = ("query", 0) ∧
      ai_classify_intent (fun _ => .ok "greetings") (fun _ => .noMatch) "  " =
        ("query", 1/10)) :=
  ⟨by decide,
   classify_empty_input_spec (fun _ _ => true) (fun _ => .ok "greetings")
     (fun _ => .noMatch) "  " (by decide)⟩

section AiFacts

theorem findFirstNumber_nonneg : ∀ {l : List Char} {v : ℚ},
    findFirstNumber l = some v → 0 ≤ v := by
  intro l
  induction l with
  | nil => intro v h; cases h
  | cons c cs ih =>
    intro v h
    unfold findFirstNumber at h
    split at h
    · injection h with h
      subst h
      positivity
    · exact ih h

theorem extract_intent_from_text_spec {r i : String} {c : ℚ}
    (h : extract_intent_from_text r = some (i, c)) :
    i ∈ intent_keys ∧ 0 ≤ c ∧
      (c ≤ 1 ∨ ∃ v, findFirstNumber r.data = some v ∧ 100 < v ∧ c = v / 100) := by
  unfold extract_intent_from_text at h
  dsimp only at h
  cases hf : intent_keys.find? (fun k => containsSub k.data (pyLowerL r.data)) with
  | none => rw [hf] at h; cases h
  | some k =>
    rw [hf] at h
    dsimp only at h
    rw [Option.some.injEq, Prod.mk.injEq] at h
    obtain ⟨hk, hc⟩ := h
    subst hk
    refine ⟨List.mem_of_find?_eq_some hf, ?_, ?_⟩
    · cases hn : findFirstNumber r.data with
      | none => rw [hn] at hc; dsimp only at hc; subst hc; norm_num
      | some v =>
        rw [hn] at hc
        dsimp only at hc
        have hv := findFirstNumber_nonneg hn
        by_cases h1 : (1 : ℚ) < v
        · rw [if_pos h1] at hc; subst hc; positivity
        · rw [if_neg h1] at hc; subst hc; exact hv
    · cases hn : findFirstNumber r.data with
      | none => rw [hn] at hc; dsimp only at hc; subst hc; left; norm_num
      | some v =>
        rw [hn] at hc
        dsimp only at hc
        by_cases h1 : (1 : ℚ) < v
        · rw [if_pos h1] at hc
          by_cases hv : v ≤ 100
          · left
            subst hc
            rw [div_le_one (by norm_num : (0:ℚ) < 100)]
            exact hv
          · right
            exact ⟨v, rfl, not_le.mp hv, hc.symm⟩
        · rw [if_neg h1] at hc
          subst hc
          left
          exact not_lt.mp h1

theorem parse_ai_response_spec {jo : String → JsonOutcome} {response i : String}
    {c : ℚ} (h : parse_ai_response jo response = some (i, c)) :
    i ∈ intent_keys ∧ 0 ≤ c ∧
      (c ≤ 1 ∨ extract_intent_from_text (pyStrip response) = some (i, c)) := by
  unfold parse_ai_response at h
  dsimp only at h
  cases hj : jo (pyStrip response) with
  | loadError => rw [hj] at h; cases h
  | noMatch =>
    rw [hj] at h
    dsimp only at h
    have hs := extract_intent_from_text_spec h
    exact ⟨hs.1, hs.2.1, Or.inr h⟩
  | loaded intentF confF =>
    rw [hj] at h
    dsimp only at h
    cases intentF with
    | none =>
      dsimp only at h
      have hs := extract_intent_from_text_spec h
      exact ⟨hs.1, hs.2.1, Or.inr h⟩
    | some i' =>
      cases confF with
      | none =>
        dsimp only at h
        have hs := extract_intent_from_text_spec h
        exact ⟨hs.1, hs.2.1, Or.inr h⟩
      | some c' =>
        dsimp only at h
        by_cases hc : intent_keys.contains i'
        · rw [if_pos hc] at h
          rw [Option.some.injEq, Prod.mk.injEq] at h
          obtain ⟨hk, hcc⟩ := h
          subst hk
          subst hcc
          refine ⟨?_, le_max_left _ _, Or.inl (max_le (by norm_num) (min_le_left _ _))⟩
          simpa [List.contains, List.elem_eq_mem] using hc
        · rw [if_neg hc] at h
          have hs := extract_intent_from_text_spec h
          exact ⟨hs.1, hs.2.1, Or.inr h⟩

theorem ai_classify_cases (g : String → Except Unit String)
    (jo : String → JsonOutcome) (m : String) :
    ai_classify_intent g jo m = ("query", 1/10) ∨
    ai_classify_intent g jo m = ("query", 3/10) ∨
    ai_classify_intent g jo m = ("query", 1/2) ∨
    ∃ resp, g m = .ok resp ∧
      parse_ai_response jo resp = some (ai_classify_intent g jo m) := by
  unfold ai_classify_intent
  by_cases he : pyStrip m = ""
  · rw [if_pos he]; exact Or.inl rfl
  · rw [if_neg he]
    cases hg : g m with
    | error e => exact Or.inr (Or.inl rfl)
    | ok resp =>
      cases hp : parse_ai_response jo resp with
      | none =>
        dsimp only
        rw [hp]
        exact Or.inr (Or.inr (Or.inl rfl))
      | some ic =>
        obtain ⟨i, c⟩ := ic
        dsimp only
        rw [hp]
        exact Or.inr (Or.inr (Or.inr ⟨resp, rfl, by rw [hp]⟩))

theorem intent_pick_bounds {p : String × ℚ} (hfst : p.1 ∈ intent_keys)
    (h0 : 0 ≤ p.2) (h1 : p.2 ≤ 1) :
    (if p.2 < 1/10 then (("query", 1/10) : String × ℚ) else p).1 ∈ intent_keys ∧
    0 ≤ (if p.2 < 1/10 then (("query", 1/10) : String × ℚ) else p).2 ∧
    (if p.2 < 1/10 then (("query", 1/10) : String × ℚ) else p).2 ≤ 1 := by
  split_ifs
  · exact ⟨by decide, by norm_num, by norm_num⟩
  · exact ⟨hfst, h0, h1⟩

theorem argmaxFixedOrder_cases (g q i f : ℚ) :
    argmaxFixedOrder g q i f = ("greetings", g) ∨
    argmaxFixedOrder g q i f = ("query", q) ∨
    argmaxFixedOrder g q i f = ("information", i) ∨
    argmaxFixedOrder g q i f = ("feedback", f) := by
  unfold argmaxFixedOrder
  split_ifs <;> simp

end AiFacts

/-- Counterexample for C1: the text-based fallback of the generative
classifier can return a confidence above 1.  With the gateway responding
"greetings 250" (no brace, so the embedded-JSON regex finds nothing,
modelled by the `noMatch` oracle), `_extract_intent_from_text` picks
intent "greetings" with first numeral 250; since 250 > 1 it divides by
100 and returns confidence 2.5 > 1. -/
theorem classify_confidence_counterexample :
    ai_classify_intent (fun _ => .ok "greetings 250") (fun _ => .noMatch) "hello" =
      ("greetings", 5/2) ∧ ¬((5 : ℚ)/2 ≤ 1) := by
  constructor
  · have hv : findFirstNumber (pyStrip "greetings 250").data = some (250 : ℚ) := by
      have h0 : findFirstNumber (pyStrip "greetings 250").data =
          some ((digitsVal ['2', '5', '0'] : ℚ) +
            (digitsVal ([] : List Char) : ℚ) / (10 : ℚ) ^ (0 : ℕ)) := rfl
      rw [h0, show digitsVal ['2', '5', '0'] = 250 from rfl,
        show digitsVal ([] : List Char) = 0 from rfl]
      norm_num
    have hext : extract_intent_from_text (pyStrip "greetings 250") =
        some ("greetings", (250 : ℚ)/100) := by
      unfold extract_intent_from_text
      dsimp only
      rw [show intent_keys.find?
          (fun i => containsSub i.data (pyLowerL (pyStrip "greetings 250").data)) =
          some "greetings" from by decide]
      dsimp only
      rw [hv]
      dsimp only
      rw [if_pos (by norm_num : (1 : ℚ) < 250)]
    have hparse : parse_ai_response (fun _ => JsonOutcome.noMatch) "greetings 250" =
        some ("greetings", (250 : ℚ)/100) := hext
    calc ai_classify_intent (fun _ => .ok "greetings 250") (fun _ => .noMatch) "hello"
        = ("greetings", (250 : ℚ)/100) := by
          unfold ai_classify_intent
          rw [if_neg (by decide : ¬(pyStrip "hello" = ""))]
          dsimp only
          rw [hparse]
      _ = ("greetings", 5/2) := by
          rw [Prod.mk.injEq]
          exact ⟨rfl, by norm_num⟩
  · norm_num

/-- C1 amended: `classify` always returns an intent from the closed
four-value set, its confidence is always ≥ 0, and the confidence is ≤ 1
under the pattern-based strategy and on every generative path except the
text-based fallback; the fallback divides a bare numeral > 1 by 100,
which keeps the confidence ≤ 1 only when the numeral is at most 100 —
when the first numeral exceeds 100 the returned confidence is
numeral/100 > 1. -/
theorem classify_confidence_range_spec :
    (∀ srch m, (classify_intent srch m).1 ∈ intent_keys ∧
      0 ≤ (classify_intent srch m).2 ∧ (classify_intent srch m).2 ≤ 1) ∧
    (∀ g jo m, (ai_classify_intent g jo m).1 ∈ intent_keys ∧
      0 ≤ (ai_classify_intent g jo m).2 ∧
      ((ai_classify_intent g jo m).2 ≤ 1 ∨
        ∃ resp v, g m = .ok resp ∧
          extract_intent_from_text (pyStrip resp) =
            some (ai_classify_intent g jo m) ∧
          findFirstNumber (pyStrip resp).data = some v ∧ 100 < v ∧
          (ai_classify_intent g jo m).2 = v / 100)) := by
  constructor
  · intro srch m
    rw [classify_intent_eq_fixed_order]
    unfold classify_intent_fixed_order
    by_cases he : pyStrip m = ""
    · rw [if_pos he]
      exact ⟨by decide, le_refl 0, by norm_num⟩
    · rw [if_neg he]
      dsimp only
      rcases argmaxFixedOrder_cases
          (calculate_score srch (pyLower (pyStrip m)) greeting_patterns)
          (calculate_score srch (pyLower (pyStrip m)) query_patterns)
          (calculate_score srch (pyLower (pyStrip m)) information_patterns)
          (calculate_score srch (pyLower (pyStrip m)) feedback_patterns)
        with hb | hb | hb | hb
      · rw [hb]
        exact intent_pick_bounds (show "greetings" ∈ intent_keys by decide)
          (calculate_score_nonneg _ _ _) (calculate_score_le_one _ _ _)
      · rw [hb]
        exact intent_pick_bounds (show "query" ∈ intent_keys by decide)
          (calculate_score_nonneg _ _ _) (calculate_score_le_one _ _ _)
      · rw [hb]
        exact intent_pick_bounds (show "information" ∈ intent_keys by decide)
          (calculate_score_nonneg _ _ _) (calculate_score_le_one _ _ _)
      · rw [hb]
        exact intent_pick_bounds (show "feedback" ∈ intent_keys by decide)
          (calculate_score_nonneg _ _ _) (calculate_score_le_one _ _ _)
  · intro g jo m
    rcases ai_classify_cases g jo m with h | h | h | ⟨resp, hg, hp⟩
    · rw [h]; exact ⟨by decide, by norm_num, Or.inl (by norm_num)⟩
    · rw [h]; exact ⟨by decide, by norm_num, Or.inl (by norm_num)⟩
    · rw [h]; exact ⟨by decide, by norm_num, Or.inl (by norm_num)⟩
    · rcases hac : ai_classify_intent g jo m with ⟨i, c⟩
      rw [hac] at hp
      have hs := parse_ai_response_spec hp
      refine ⟨hs.1, hs.2.1, ?_⟩
      rcases hs.2.2 with hle | hext
      · exact Or.inl hle
      · rcases extract_intent_from_text_spec hext with ⟨_, _, hc2⟩
        rcases hc2 with hle | ⟨v, hfind, h100, hcv⟩
        · exact Or.inl hle
        · exact Or.inr ⟨resp, v, hg, hext, hfind, h100, hcv⟩

/-- Counterexample for C2: when the gateway call succeeds but the
response can be parsed neither as embedded JSON nor by the intent-label
scan, `AIIntentClassifier.classify_intent` returns `(query, 0.5)`
(src/ai_intent_classifier.py line 138), not the `(query, 0.3)` the claim
states for that case. -/
theorem ai_classify_unparseable_counterexample :
    ai_classify_intent (fun _ => .ok "mmm") (fun _ => .noMatch) "hi" =
      ("query", 1/2) ∧
    (("query", (1 : ℚ)/2) : String × ℚ) ≠ ("query", 3/10) := by
  constructor
  · rfl
  · intro h
    have h0 : (1 : ℚ)/2 = 3/10 := congrArg Prod.snd h
    norm_num at h0

/-- C2 amended: for a non-empty message, a failed gateway call yields
exactly `(query, 0.3)` and never raises; a successful call whose response
yields no parse result (neither embedded JSON nor text scan) yields
`(query, 0.5)`. -/
theorem ai_classify_failure_defaults :
    ∀ g jo (m : String), pyStrip m ≠ "" →
      (∀ e : Unit, g m = .error e →
        ai_classify_intent g jo m = ("query", 3/10)) ∧
      (∀ r, g m = .ok r → parse_ai_response jo r = none →
        ai_classify_intent g jo m = ("query", 1/2)) := by
  intro g jo m h
  constructor
  · intro e hg
    unfold ai_classify_intent
    rw [if_neg h, hg]
  · intro r hg hp
    unfold ai_classify_intent
    rw [if_neg h, hg]
    dsimp only
    rw [hp]

/-- Witness for C2 (amended): the theorem applied to a concrete failing
gateway and a concrete unparseable success. -/
theorem ai_classify_failure_defaults_witness :
    pyStrip "hi" ≠ "" ∧
    ai_classify_intent (fun _ => .error ()) (fun _ => .noMatch) "hi" =
      ("query", 3/10) ∧
    ai_classify_intent (fun _ => .ok "mmm") (fun _ => .noMatch) "hi" =
      ("query", 1/2) :=
  ⟨by decide,
   (ai_classify_failure_defaults (fun _ => .error ()) (fun _ => .noMatch) "hi"
     (by decide)).1 () rfl,
   (ai_classify_failure_defaults (fun _ => .ok "mmm") (fun _ => .noMatch) "hi"
     (by decide)).2 "mmm" rfl (by rfl)⟩

/-- Counterexample for C4: with the analyzer succeeding (`Type:
technical`) and the question-generation gateway call failing,
`generate_follow_up_questions` with classified intent `query` returns the
generic fallback list (selected by the analysis's response type, see
src/chain_query_generator.py line 197), not the query-specific list the
claim requires. -/
theorem follow_up_fallback_counterexample :
    generate_follow_up_questions (Except.ok "Type: technical")
        (Except.error ()) "query" =
      ["Would you like to know more about this?",
       "Do you want to explore this further?",
       "Should I tell you more about this?"] ∧
    get_fallback_questions "query" ≠
      ["Would you like to know more about this?",
       "Do you want to explore this further?",
       "Should I tell you more about this?"] := by
  exact ⟨by decide, by decide⟩

/-- C4 amended: gateway failures are never propagated, and when the
question-generation call fails `generateFollowUps` returns the fixed
fallback list selected by the analyzed response type (the `Type:` field
of the analyzer output, lowercased; `general` when the analyzer call
failed or produced no `Type:` line) — not by the classified intent; when
only the analyzer call fails, generation proceeds with the default
characterization and the generated (parsed) questions are returned. -/
theorem follow_up_fallback_spec :
    ∀ gwA (intent : String),
      generate_follow_up_questions gwA (Except.error ()) intent =
        get_fallback_questions (analyze_response gwA).rtype ∧
      (∀ r, generate_follow_up_questions (Except.error ()) (Except.ok r) intent =
        parse_questions r) :=
  fun _ _ => ⟨rfl, fun _ => rfl⟩

/-- C5: `appendBest` returns the reply unchanged when the candidate list
is empty, else appends the first candidate, stripped of surrounding `"`
characters, after a blank line; in every case (for every gateway outcome,
i.e. also when the underlying calls raise) the result extends the
original reply, which is returned un-degraded as a prefix. -/
theorem append_best_spec :
    ∀ gwA gwG (reply intent : String),
      (generate_follow_up_questions gwA gwG intent = [] →
        append_best_follow_up_to_response gwA gwG reply intent = reply) ∧
      (∀ q rest, generate_follow_up_questions gwA gwG intent = q :: rest →
        append_best_follow_up_to_response gwA gwG reply intent =
          reply ++ "\n\n" ++ (⟨pyStripSetL ['"'] q.data⟩ : String)) ∧
      (∃ t, append_best_follow_up_to_response gwA gwG reply intent = reply ++ t) := by
  intro gwA gwG reply intent
  refine ⟨?_, ?_, ?_⟩
  · intro h
    unfold append_best_follow_up_to_response
    rw [h]
  · intro q rest h
    unfold append_best_follow_up_to_response
    rw [h]
  · unfold append_best_follow_up_to_response
    cases hf : generate_follow_up_questions gwA gwG intent with
    | nil => exact ⟨"", by simp⟩
    | cons q rest =>
      exact ⟨"\n\n" ++ (⟨pyStripSetL ['"'] q.data⟩ : String),
        by dsimp only; rw [String.append_assoc]⟩

/-- Witness for C5: the theorem applied to a concrete empty candidate
list (gateway returns text with no parseable question) and to a concrete
singleton list whose candidate carries surrounding quotes. -/
theorem append_best_spec_witness :
    (generate_follow_up_questions (Except.ok "t") (Except.ok "") "query" = [] ∧
      append_best_follow_up_to_response (Except.ok "t") (Except.ok "") "reply"
        "query" = "reply") ∧
    (generate_follow_up_questions (Except.ok "t")
        (Except.ok "\"How about more on this topic then?\"") "query" =
        ["\"How about more on this topic then?\""] ∧
      append_best_follow_up_to_response (Except.ok "t")
        (Except.ok "\"How about more on this topic then?\"") "reply" "query" =
        "reply" ++ "\n\n" ++
          (⟨pyStripSetL ['"'] "\"How about more on this topic then?\"".data⟩ :
            String)) :=
  ⟨⟨by decide,
    (append_best_spec (Except.ok "t") (Except.ok "") "reply" "query").1 (by decide)⟩,
   ⟨by decide,
    (append_best_spec (Except.ok "t")
        (Except.ok "\"How about more on this topic then?\"") "reply" "query").2.1
      "\"How about more on this topic then?\"" [] (by decide)⟩⟩

/-- Counterexample for C6: a line that is a quoted question is kept by
`_parse_questions` with its surrounding quote characters intact — the
stripped character set `'•-*123456789. '` (src/chain_query_generator.py
line 208) contains no quote, so elements are not trimmed of surrounding
quotes. -/
theorem parse_questions_quotes_counterexample :
    parse_questions "\"Would you like to know more about this topic?\"" =
      ["\"Would you like to know more about this topic?\""] ∧
    "\"Would you like to know more about this topic?\"".data.head? = some '"' ∧
    "\"Would you like to know more about this topic?\"".data.getLast? = some '"' := by
  exact ⟨by decide, by decide, by decide⟩

theorem dropWhile_head?_false {p : Char → Bool} {l : List Char} {c : Char}
    (h : (l.dropWhile p).head? = some c) : p c = false := by
  induction l with
  | nil => cases h
  | cons a l ih =>
    rw [List.dropWhile_cons] at h
    split at h
    · exact ih h
    · rename_i ha
      rw [List.head?_cons, Option.some.injEq] at h
      subst h
      rw [Bool.not_eq_true] at ha
      exact ha

theorem dropWhile_eq_self_of_head {p : Char → Bool} {l : List Char}
    (h : ∀ c, l.head? = some c → p c = false) : l.dropWhile p = l := by
  cases l with
  | nil => rfl
  | cons a l =>
    have ha : p a = false := h a rfl
    rw [List.dropWhile_cons, if_neg (by rw [ha]; exact Bool.false_ne_true)]

theorem dropWhile_idem {p : Char → Bool} (l : List Char) :
    (l.dropWhile p).dropWhile p = l.dropWhile p :=
  dropWhile_eq_self_of_head (fun _ hc => dropWhile_head?_false hc)

theorem dropTrailing_append_eq (p : Char → Bool) (l : List Char) :
    ∃ t, dropTrailing p l ++ t = l := by
  rcases List.dropWhile_suffix (l := l.reverse) p with ⟨t, ht⟩
  refine ⟨t.reverse, ?_⟩
  calc (l.reverse.dropWhile p).reverse ++ t.reverse
      = (t ++ l.reverse.dropWhile p).reverse := by rw [List.reverse_append]
    _ = l.reverse.reverse := by rw [ht]
    _ = l := List.reverse_reverse l

theorem head?_dropTrailing (p : Char → Bool) (l : List Char) :
    dropTrailing p l = [] ∨ (dropTrailing p l).head? = l.head? := by
  rcases dropTrailing_append_eq p l with ⟨t, ht⟩
  cases hd : dropTrailing p l with
  | nil => exact Or.inl rfl
  | cons a d =>
    right
    have h2 : l.head? = some a := by
      rw [← ht, hd]
      rfl
    rw [h2]
    rfl

theorem strip_strip {p : Char → Bool} (l : List Char) :
    dropTrailing p ((dropTrailing p (l.dropWhile p)).dropWhile p) =
      dropTrailing p (l.dropWhile p) := by
  have h1 : (dropTrailing p (l.dropWhile p)).dropWhile p =
      dropTrailing p (l.dropWhile p) := by
    apply dropWhile_eq_self_of_head
    intro c hc
    rcases head?_dropTrailing p (l.dropWhile p) with hnil | hhead
    · rw [hnil] at hc; cases hc
    · rw [hhead] at hc
      exact dropWhile_head?_false hc
  rw [h1]
  unfold dropTrailing
  rw [List.reverse_reverse, dropWhile_idem]

theorem pyStripSetL_idem (set l : List Char) :
    pyStripSetL set (pyStripSetL set l) = pyStripSetL set l :=
  strip_strip l

theorem pyStripL_idem (l : List Char) : pyStripL (pyStripL l) = pyStripL l :=
  strip_strip l

theorem filterMap_sublist_map {α β : Type} (f : α → Option β) (g : α → β)
    (h : ∀ a b, f a = some b → b = g a) :
    ∀ l : List α, (l.filterMap f).Sublist (l.map g) := by
  intro l
  induction l with
  | nil => exact List.Sublist.refl _
  | cons a l ih =>
    rw [List.map_cons, List.filterMap_cons]
    cases hfa : f a with
    | none => exact ih.cons _
    | some b =>
      rw [h a b hfa]
      exact List.Sublist.cons₂ _ ih

/-- C6 amended: every list returned by `_parse_questions` has length at
most 3; every element contains a question mark and exceeds 10 characters;
the generation order of the input lines is preserved: the output is, in
order, a sublist of the stream of cleaned candidates of the line scan
(one per line of the stripped response, marker-set-stripped), or, on the
sentence-split fallback path, of the stream of whitespace-stripped
sentence fragments; line-path elements are trimmed of the
leading/trailing bullet/numbering set `'•-*123456789. '` (they are fixed
points of that stripping), fallback elements only of whitespace; elements
are however not trimmed of surrounding quote characters. -/
theorem parse_questions_spec :
    ∀ response, (parse_questions response).length ≤ 3 ∧
      (∀ q ∈ parse_questions response,
        q.data.contains '?' = true ∧ 10 < q.length) ∧
      (((parse_questions response).Sublist
          ((pySplitL '\n' (pyStripL response.data)).map
            (fun l => (⟨pyStripSetL strip_marker_set (pyStripL l)⟩ : String))) ∧
        ∀ q ∈ parse_questions response,
          pyStripSetL strip_marker_set q.data = q.data) ∨
       ((parse_questions response).Sublist
          ((pySplitL '.' response.data).map
            (fun s => (⟨pyStripL s⟩ : String))) ∧
        ∀ q ∈ parse_questions response, pyStripL q.data = q.data)) := by
  intro response
  refine ⟨?_, ?_, ?_⟩
  · unfold parse_questions
    dsimp only
    split <;> exact List.length_take_le _ _
  · intro q hq
    unfold parse_questions at hq
    dsimp only at hq
    have hq' := List.mem_of_mem_take hq
    clear hq
    split at hq'
    · rcases List.mem_filterMap.mp hq' with ⟨s, _, hf⟩
      split at hf
      · rename_i hqm
        split at hf
        · rename_i hlen
          rw [Option.some.injEq] at hf
          subst hf
          refine ⟨?_, of_decide_eq_true hlen⟩
          have hmem : ('?' : Char) ∈ pyStripL s := by
            apply mem_pyStripL_of_mem
            · simpa [List.contains, List.elem_eq_mem] using hqm
            · decide
          simpa [List.contains, List.elem_eq_mem] using hmem
        · cases hf
      · cases hf
    · rcases List.mem_filterMap.mp hq' with ⟨l0, _, hf⟩
      split at hf
      · rename_i hcond
        split at hf
        · rename_i hlen
          rw [Option.some.injEq] at hf
          subst hf
          rw [Bool.and_eq_true, decide_eq_true_eq] at hlen
          refine ⟨?_, hlen.2⟩
          rw [Bool.and_eq_true, Bool.or_eq_true, decide_eq_true_eq] at hcond
          have hqm : ('?' : Char) ∈ pyStripL l0 := by
            rcases hcond.2 with hc | hc
            · simpa [List.contains, List.elem_eq_mem] using hc
            · rcases List.getLast?_eq_some_iff.mp hc with ⟨ys, hys⟩
              rw [hys]
              simp
          have hmem : ('?' : Char) ∈ pyStripSetL strip_marker_set (pyStripL l0) := by
            apply mem_pyStripSetL_of_mem hqm
            decide
          simpa [List.contains, List.elem_eq_mem] using hmem
        · cases hf
      · cases hf
  · unfold parse_questions
    dsimp only
    split
    · right
      constructor
      · refine (List.take_sublist _ _).trans (filterMap_sublist_map _ _ ?_ _)
        intro s q hf
        split at hf
        · split at hf
          · rw [Option.some.injEq] at hf
            exact hf.symm
          · cases hf
        · cases hf
      · intro q hq
        have hq' := List.mem_of_mem_take hq
        rcases List.mem_filterMap.mp hq' with ⟨s, _, hf⟩
        split at hf
        · split at hf
          · rw [Option.some.injEq] at hf
            subst hf
            exact pyStripL_idem s
          · cases hf
        · cases hf
    · left
      constructor
      · refine (List.take_sublist _ _).trans (filterMap_sublist_map _ _ ?_ _)
        intro l0 q hf
        split at hf
        · split at hf
          · rw [Option.some.injEq] at hf
            exact hf.symm
          · cases hf
        · cases hf
      · intro q hq
        have hq' := List.mem_of_mem_take hq
        rcases List.mem_filterMap.mp hq' with ⟨l0, _, hf⟩
        split at hf
        · split at hf
          · rw [Option.some.injEq] at hf
            subst hf
            exact pyStripSetL_idem strip_marker_set (pyStripL l0)
          · cases hf
        · cases hf

/-- Witness for C6 (amended): the theorem applied to a concrete
enumerated line, whose candidate indeed carries a question mark and more
than 10 characters. -/
theorem parse_questions_spec_witness :
    ("What is this about anyway?" ∈
      parse_questions "1. What is this about anyway?") ∧
    ("What is this about anyway?".data.contains '?' = true ∧
      10 < "What is this about anyway?".length) :=
  ⟨by decide,
   (parse_questions_spec "1. What is this about anyway?").2.1
     "What is this about anyway?" (by decide)⟩

theorem tokensAux_chars {Q : Char → Prop} :
    ∀ (l acc : List Char), (∀ c ∈ l, isWordChar c = true → Q c) →
      (∀ c ∈ acc, Q c) → ∀ w ∈ tokensAux l acc, ∀ c ∈ w, Q c := by
  intro l
  induction l with
  | nil =>
    intro acc _ hacc w hw c hc
    unfold tokensAux at hw
    split at hw
    · cases hw
    · rw [List.mem_singleton] at hw
      subst hw
      exact hacc c (List.mem_reverse.mp hc)
  | cons a l ih =>
    intro acc hl hacc w hw c hc
    unfold tokensAux at hw
    split at hw
    · rename_i ha
      refine ih (a :: acc) (fun d hd hwd => hl d (List.mem_cons_of_mem a hd) hwd)
        (fun d hd => ?_) w hw c hc
      rcases List.mem_cons.mp hd with rfl | hd
      · exact hl d (List.mem_cons_self _ _) ha
      · exact hacc d hd
    · split at hw
      · exact ih [] (fun d hd hwd => hl d (List.mem_cons_of_mem a hd) hwd)
          (fun d hd => absurd hd (List.not_mem_nil d)) w hw c hc
      · rcases List.mem_cons.mp hw with rfl | hw
        · exact hacc c (List.mem_reverse.mp hc)
        · exact ih [] (fun d hd hwd => hl d (List.mem_cons_of_mem a hd) hwd)
            (fun d hd => absurd hd (List.not_mem_nil d)) w hw c hc

theorem pyFindWords_chars {l : List Char} {w : List Char} (hw : w ∈ pyFindWords l)
    {c : Char} (hc : c ∈ w) : isWordChar c = true ∧ c ∈ l := by
  refine tokensAux_chars (Q := fun c => isWordChar c = true ∧ c ∈ l) l []
    (fun d hd hwd => ⟨hwd, hd⟩)
    (fun d hd => absurd hd (List.not_mem_nil d)) w hw c hc

theorem pyLowerL_not_upper {l : List Char} {c : Char} (hc : c ∈ pyLowerL l) :
    ¬(65 ≤ c.toNat ∧ c.toNat ≤ 90) := by
  rcases List.mem_map.mp hc with ⟨d, _, rfl⟩
  exact pyCharLower_not_upper d

/-- C8: `extract_keywords` returns at most 10 entries; every entry is a
token (a maximal word-character run) of the lowercased message — hence
contains no ASCII uppercase letter — of length > 2 and not in the fixed
stop-word set; the output is a sublist of the token stream, so
first-occurrence order is preserved; and on the spec's example it returns
exactly ["what", "weather", "like", "today"]. -/
theorem extract_keywords_spec :
    ∀ m : String, (extract_keywords m).length ≤ 10 ∧
      (∀ w ∈ extract_keywords m, 2 < w.length ∧ w ∉ stop_words ∧
        ∀ c ∈ w.data, isWordChar c = true ∧ ¬(65 ≤ c.toNat ∧ c.toNat ≤ 90)) ∧
      (extract_keywords m).Sublist
        ((pyFindWords (pyLowerL m.data)).map (fun w => (⟨w⟩ : String))) ∧
      extract_keywords "What is the weather like today" =
        ["what", "weather", "like", "today"] := by
  intro m
  refine ⟨?_, ?_, ?_, by decide⟩
  · unfold extract_keywords
    dsimp only
    exact List.length_take_le _ _
  · intro w hw
    unfold extract_keywords at hw
    dsimp only at hw
    have hw' := List.mem_of_mem_take hw
    rw [List.mem_filter] at hw'
    obtain ⟨hmem, hpred⟩ := hw'
    rw [Bool.and_eq_true, Bool.not_eq_true', decide_eq_true_eq] at hpred
    refine ⟨hpred.2, ?_, ?_⟩
    · intro hstop
      have : stop_words.contains w = true := by
        simpa [List.contains, List.elem_eq_mem] using hstop
      rw [hpred.1] at this
      cases this
    · intro c hc
      rcases List.mem_map.mp hmem with ⟨t, ht, rfl⟩
      have hct : c ∈ t := hc
      have h1 := pyFindWords_chars ht hct
      exact ⟨h1.1, pyLowerL_not_upper h1.2⟩
  · unfold extract_keywords
    dsimp only
    exact (List.take_sublist _ _).trans (List.filter_sublist _)

/-- Witness for C8: the theorem applied to the spec's example message and
its first keyword. -/
theorem extract_keywords_spec_witness :
    ("what" ∈ extract_keywords "What is the weather like today") ∧
    (2 < "what".length ∧ "what" ∉ stop_words ∧
      ∀ c ∈ "what".data, isWordChar c = true ∧ ¬(65 ≤ c.toNat ∧ c.toNat ≤ 90)) :=
  ⟨by decide,
   (extract_keywords_spec "What is the weather like today").2.1 "what" (by decide)⟩

end Persona
